import Mathlib

/-!
Verification development for the glyph-dump program (src/main.rs, src/error.rs).

The Rust source is shallowly embedded: pure functions become Lean functions,
`Result` becomes `Except AppError`, machine integers become `Nat`/`Int` with
explicit wrap-around where a cast matters, and `f32` quantities (bounding-box
coordinates, scale factors, coverage) are modelled exactly over `ℚ`.  External
collaborators (the font library, the image crate, the filesystem) are modelled
as oracle functions or data carried by the `Font`/`Glyph` structures, following
the interfaces the program consumes.
-/

/-- Embedding of `AppError` from src/error.rs.  Payloads that the program only
threads through opaquely (io errors, image errors, parse errors) are collapsed
to bare constructors; string payloads that the claims inspect are kept. -/
inductive AppError where
  | ColorParseError (s : List Nat)
  | HexStringError
  | Io
  | ImageError
  | InvalidRange
  | ParseIntError
  | General (s : String)
  | GlyphNotDefined (c : Nat)
  | FormattedMessage (s : String)
  | OutOfRangeUnicode (s : String)
deriving DecidableEq, Repr

deriving instance DecidableEq for Except

/-- Embedding of `struct Color` (an RGB triple of `u8`). -/
structure Color where
  red : Nat
  green : Nat
  blue : Nat
deriving DecidableEq, Repr

/-- A point with exact (`f32`-valued, modelled as `ℚ`) coordinates, as used by
the unit-scale `exact_bounding_box` of rusttype. -/
structure QPoint where
  x : ℚ
  y : ℚ
deriving DecidableEq

/-- Exact bounding box `Rect<f32>` of a scaled glyph. -/
structure QRect where
  min : QPoint
  max : QPoint
deriving DecidableEq

/-- A point with `i32` coordinates, as used by `pixel_bounding_box`. -/
structure IPoint where
  x : Int
  y : Int
deriving DecidableEq

/-- Pixel bounding box `Rect<i32>` of a positioned glyph. -/
structure IRect where
  min : IPoint
  max : IPoint
deriving DecidableEq

/-- `GlyphDimensions::get_glyph_height` for `Rect<i32>`:
`(min_y - max_y).unsigned_abs() as u32`. -/
def IRect.get_glyph_height (r : IRect) : Nat :=
  (r.min.y - r.max.y).natAbs

/-- `GlyphDimensions::get_glyph_width` for `Rect<i32>`:
`(max_x - min_x) as u32`, i.e. the `i32` difference reinterpreted mod 2^32. -/
def IRect.get_glyph_width (r : IRect) : Nat :=
  ((r.max.x - r.min.x) % (2 ^ 32 : Int)).toNat

/-- Coverage callbacks delivered by `PositionedGlyph::draw`: for each covered
pixel, offsets (x, y) relative to the pixel bounding box origin and a coverage
value in [0, 1], in rasterizer order. -/
structure PositionedData where
  pixel_bounding_box : Option IRect
  coverage : List (Nat × Nat × ℚ)

/-- A glyph handle: its id (0 is the .notdef placeholder), the exact bounding
box of `glyph.scaled(Scale::uniform(1.0))`, and for each uniform scale the
positioned-at-origin data `glyph.scaled(s).positioned(point(0.0, 0.0))`. -/
structure Glyph where
  id : Nat
  exact_bounding_box_unit : Option QRect
  positioned : ℚ → PositionedData

/-- The font capability: glyph lookup by Unicode scalar value. -/
structure Font where
  glyph : Nat → Glyph

/-- The `max_dimension` computed inside `get_scale`: the absolute value of the
element of `vec![height, width]` with the largest absolute value. -/
def max_dimension_of (bb : QRect) : ℚ :=
  |bb.max.y - bb.min.y| ⊔ |bb.max.x - bb.min.x|

/-- Embedding of `get_scale` (src/main.rs lines 188-213).  Queries the exact
unit-scale bounding box, fails with the `General` error when it is absent, and
otherwise returns `Ok` of `floor(img_size / max_dimension)`.  Note the source
has no check on the sign of the result: the floored value is returned as-is. -/
def get_scale (glyph : Glyph) (img_size : Nat) : Except AppError ℚ :=
  match glyph.exact_bounding_box_unit with
  | none => Except.error (AppError.General "Failed to get exact bounding box for glyph")
  | some one_to_one_scaling =>
    let max_dimension : ℚ := max_dimension_of one_to_one_scaling
    let scale_factor : ℚ := ((⌊(img_size : ℚ) / max_dimension⌋ : ℤ) : ℚ)
    Except.ok scale_factor

/-- `char::encode_utf16` into a zero-initialized `[u16; 2]` buffer: a BMP
scalar fills slot 0 and leaves slot 1 as 0; a supplementary scalar fills
slot 0 with the high surrogate and slot 1 with the low surrogate. -/
def utf16_units (c : Nat) : Nat × Nat :=
  if c < 0x10000 then (c, 0)
  else (0xD800 + (c - 0x10000) / 0x400, 0xDC00 + (c - 0x10000) % 0x400)

/-- The byte sequence built by the `for n in (0..2).rev()` loop in
`convert_to_be_hex_string`: slot 1 is pushed first (hi byte then lo byte),
then slot 0. -/
def to_be_bytes (c : Nat) : List Nat :=
  [(utf16_units c).2 / 256, (utf16_units c).2 % 256,
   (utf16_units c).1 / 256, (utf16_units c).1 % 256]

/-- `format!` hex digit (lowercase). -/
def hexDigitChar (n : Nat) : Char :=
  if n < 10 then Char.ofNat (48 + n) else Char.ofNat (87 + n)

/-- `format!("{:02x}", b)` for a byte: two zero-padded lowercase hex digits. -/
def byteHexChars (b : Nat) : List Char :=
  [hexDigitChar (b / 16), hexDigitChar (b % 16)]

/-- Embedding of `convert_to_be_hex_string` (src/main.rs lines 216-234).  The
source wraps the result in `Ok`, but no error path exists, so the embedding
returns the string directly; `create_glyph_img` uses it accordingly. -/
def convert_to_be_hex_string (c : Nat) : String :=
  String.mk ((to_be_bytes c).flatMap byteHexChars)

/-- Value of an ASCII hex digit character (both cases). -/
def hexCharVal (ch : Char) : Option Nat :=
  if 48 ≤ ch.toNat ∧ ch.toNat ≤ 57 then some (ch.toNat - 48)
  else if 97 ≤ ch.toNat ∧ ch.toNat ≤ 102 then some (ch.toNat - 87)
  else if 65 ≤ ch.toNat ∧ ch.toNat ≤ 70 then some (ch.toNat - 55)
  else none

/-- Decode a character list as consecutive hex byte pairs. -/
def decode_hex_pairs : List Char → Option (List Nat)
  | [] => some []
  | c1 :: c2 :: rest =>
    match hexCharVal c1, hexCharVal c2, decode_hex_pairs rest with
    | some h, some l, some bs => some ((h * 16 + l) :: bs)
    | _, _, _ => none
  | _ => none

/-- Whether a character is a lowercase hexadecimal digit. -/
def isLowerHexChar (ch : Char) : Bool :=
  (48 ≤ ch.toNat ∧ ch.toNat ≤ 57) ∨ (97 ≤ ch.toNat ∧ ch.toNat ≤ 102)

/-- Modelled from the spec: reconstruct a code point from 4 bytes read in
big-endian, most-significant-UTF-16-unit-first order, treating a leading zero
unit as the padding of an absent high surrogate (the claimed decoding). -/
def spec_reconstruct_be (bs : List Nat) : Option Nat :=
  match bs with
  | [b0, b1, b2, b3] =>
    let u0 := b0 * 256 + b1
    let u1 := b2 * 256 + b3
    if u0 = 0 then some u1
    else if 0xD800 ≤ u0 ∧ u0 < 0xDC00 ∧ 0xDC00 ≤ u1 ∧ u1 < 0xE000 then
      some (0x10000 + (u0 - 0xD800) * 0x400 + (u1 - 0xDC00))
    else none
  | _ => none

/-- Modelled from the spec: the full claimed round-trip decoder, hex string to
bytes to most-significant-unit-first UTF-16 reconstruction. -/
def spec_decode_be_hex (s : String) : Option Nat :=
  (decode_hex_pairs s.data).bind spec_reconstruct_be

/-- Reconstruct a code point from 4 bytes in the order the program actually
writes them: the first byte pair is UTF-16 slot 1 (zero for BMP scalars, the
low surrogate for supplementary ones) and the second pair is slot 0. -/
def reconstruct_code_order (bs : List Nat) : Option Nat :=
  match bs with
  | [b0, b1, b2, b3] =>
    let u_second := b0 * 256 + b1
    let u_first := b2 * 256 + b3
    if u_second = 0 then some u_first
    else if 0xD800 ≤ u_first ∧ u_first < 0xDC00 ∧ 0xDC00 ≤ u_second ∧ u_second < 0xE000 then
      some (0x10000 + (u_first - 0xD800) * 0x400 + (u_second - 0xDC00))
    else none
  | _ => none

/-- Decoder matching the program's actual byte order (slot 1 first). -/
def decode_swapped_hex (s : String) : Option Nat :=
  (decode_hex_pairs s.data).bind reconstruct_code_order

/-- An 8-bit RGBA pixel. -/
structure Rgba where
  r : Nat
  g : Nat
  b : Nat
  a : Nat
deriving DecidableEq, Repr

/-- The RGBA image buffer, modelled as its dimensions plus the pixel map. -/
structure Canvas where
  width : Nat
  height : Nat
  pixels : Nat → Nat → Rgba

/-- `DynamicImage::new_rgba8(w, h).to_rgba8()`: models the image crate
(external collaborator, spec section 6) whose new buffers are zero-filled,
i.e. every pixel starts as rgba(0, 0, 0, 0). -/
def DynamicImage_new_rgba8 (w h : Nat) : Canvas :=
  ⟨w, h, fun _ _ => ⟨0, 0, 0, 0⟩⟩

/-- `ImageBuffer::put_pixel`: overwrite one pixel. -/
def Canvas.put_pixel (img : Canvas) (x y : Nat) (p : Rgba) : Canvas :=
  { img with pixels := fun i j => if i = x ∧ j = y then p else img.pixels i j }

/-- Rust `expr as u8` applied to a nonnegative-or-any `f32` value: truncate
toward zero and saturate into [0, 255]. -/
def f32_as_u8 (q : ℚ) : Nat :=
  min (⌊q⌋).toNat 255

/-- `max_sz` in `create_glyph_img`: `std::cmp::max(glyph_height, glyph_width)`. -/
def canvas_side (bb : IRect) : Nat :=
  max bb.get_glyph_height bb.get_glyph_width

/-- `x_offset = (max_sz - glyph_width) / 2` (u32 arithmetic). -/
def x_offset_of (bb : IRect) : Nat :=
  (canvas_side bb - bb.get_glyph_width) / 2

/-- `y_offset = (max_sz - glyph_height) / 2` (u32 arithmetic). -/
def y_offset_of (bb : IRect) : Nat :=
  (canvas_side bb - bb.get_glyph_height) / 2

/-- The square canvas allocated by `create_glyph_img` for a pixel bounding
box: `DynamicImage::new_rgba8(max_sz, max_sz)`. -/
def allocate_canvas (bb : IRect) : Canvas :=
  DynamicImage_new_rgba8 (canvas_side bb) (canvas_side bb)

/-- The pixel written for one draw callback: RGB from the output color,
alpha `(v * 255.0) as u8`. -/
def pixel_value (output_color : Nat × Nat × Nat) (v : ℚ) : Rgba :=
  ⟨output_color.1, output_color.2.1, output_color.2.2, f32_as_u8 (v * 255)⟩

/-- The `positioned_glyph.draw(|x, y, v| image.put_pixel(...))` loop: each
covered pixel is written at its offset-shifted position. -/
def draw_into (bb : IRect) (output_color : Nat × Nat × Nat)
    (coverage : List (Nat × Nat × ℚ)) (img : Canvas) : Canvas :=
  coverage.foldl
    (fun im p =>
      im.put_pixel (p.1 + x_offset_of bb) (p.2.1 + y_offset_of bb)
        (pixel_value output_color p.2.2))
    img

/-- Embedding of `create_glyph_img` (src/main.rs lines 237-313).  `save`
models `image.save(path)` (external image/filesystem collaborator): `none`
means success, `some e` the error converted into `AppError`. -/
def create_glyph_img (save : String → Canvas → Option AppError) (font : Font)
    (unicode : Nat) (img_size : Nat) (output_color : Nat × Nat × Nat)
    (base_dir : String) : Except AppError (Option String) :=
  let glyph := font.glyph unicode
  if glyph.id = 0 then
    Except.error (AppError.GlyphNotDefined unicode)
  else
    match get_scale glyph img_size with
    | Except.error e => Except.error e
    | Except.ok scale =>
      let positioned_glyph := glyph.positioned scale
      match positioned_glyph.pixel_bounding_box with
      | some bounding_box =>
        let image := allocate_canvas bounding_box
        let image := draw_into bounding_box output_color positioned_glyph.coverage image
        let hex_name := convert_to_be_hex_string unicode
        let image_path :=
          base_dir ++ "/" ++ String.mk ((hex_name.data.drop 2).take 6) ++ "_image.png"
        match save image_path image with
        | some e => Except.error e
        | none => Except.ok (some image_path)
      | none =>
        Except.error (AppError.FormattedMessage
          ("Failed to get pixel bounding box for unicode: " ++ toString unicode))

/-- The per-candidate attempt list built by `main`:
`valid_unicode_ranges.iter().map(|unicode| create_glyph_img(...))`. -/
def batch_attempts (save : String → Canvas → Option AppError) (font : Font)
    (img_size : Nat) (output_color : Nat × Nat × Nat) (base_dir : String)
    (cands : List Nat) : List (Except AppError (Option String)) :=
  cands.map (fun unicode => create_glyph_img save font unicode img_size output_color base_dir)

/-- The collected successes: `.filter_map(|x| x.ok()).collect()`. -/
def run_batch (save : String → Canvas → Option AppError) (font : Font)
    (img_size : Nat) (output_color : Nat × Nat × Nat) (base_dir : String)
    (cands : List Nat) : List (Option String) :=
  (batch_attempts save font img_size output_color base_dir cands).filterMap Except.toOption

/-- `char::to_digit(16)` on an ASCII byte: hex digit value, both cases. -/
def hexByteVal (b : Nat) : Option Nat :=
  if 48 ≤ b ∧ b ≤ 57 then some (b - 48)
  else if 97 ≤ b ∧ b ≤ 102 then some (b - 87)
  else if 65 ≤ b ∧ b ≤ 70 then some (b - 55)
  else none

/-- The digit-accumulation loop of `u8::from_str_radix(s, 16)`: checked
multiply-and-add, failing when a non-digit appears or the value leaves u8
range. -/
def parse_hex_u8_digits (acc : Nat) : List Nat → Option Nat
  | [] => some acc
  | b :: rest =>
    match hexByteVal b with
    | some d => if acc * 16 + d ≤ 255 then parse_hex_u8_digits (acc * 16 + d) rest else none
    | none => none

/-- `u8::from_str_radix(s, 16)` over the byte slice `s`: optional leading
sign, at least one digit, checked accumulation; a minus sign underflows on
any nonzero magnitude.  Every failure is `Err(ParseIntError)`. -/
def u8_from_str_radix_16 (s : List Nat) : Except AppError Nat :=
  match s with
  | [] => Except.error AppError.ParseIntError
  | b :: rest =>
    let signed := b = 43 ∨ b = 45
    let digits := if signed then rest else b :: rest
    if digits = [] then Except.error AppError.ParseIntError
    else
      match parse_hex_u8_digits 0 digits with
      | some v =>
        if b = 45 ∧ v ≠ 0 then Except.error AppError.ParseIntError else Except.ok v
      | none => Except.error AppError.ParseIntError

/-- Embedding of `Color::from_str` (src/main.rs lines 31-43) over the byte
content of the input string: reject when the byte length is not 7, then parse
bytes 1..3, 3..5 and 5..7 as hex `u8` components.  The leading byte is never
inspected. -/
def color_from_str (s : List Nat) : Except AppError Color :=
  if s.length ≠ 7 then Except.error (AppError.ColorParseError s)
  else
    match u8_from_str_radix_16 ((s.drop 1).take 2) with
    | Except.error e => Except.error e
    | Except.ok red =>
      match u8_from_str_radix_16 ((s.drop 3).take 2) with
      | Except.error e => Except.error e
      | Except.ok green =>
        match u8_from_str_radix_16 ((s.drop 5).take 2) with
        | Except.error e => Except.error e
        | Except.ok blue => Except.ok ⟨red, green, blue⟩

/-- Worker for `replace2`, structurally recursive on a fuel bound that
dominates the list length. -/
def replace2_go (p1 p2 : Char) : Nat → List Char → List Char
  | _, [] => []
  | 0, l => l
  | fuel + 1, c1 :: rest =>
    match rest with
    | [] => [c1]
    | c2 :: rest2 =>
      if c1 = p1 ∧ c2 = p2 then replace2_go p1 p2 fuel rest2
      else c1 :: replace2_go p1 p2 fuel rest

/-- `str::replace` for a two-character pattern: remove every non-overlapping
occurrence, scanning left to right. -/
def replace2 (p1 p2 : Char) (l : List Char) : List Char :=
  replace2_go p1 p2 l.length l

/-- `s.split("..")`: split on every non-overlapping occurrence of `".."`. -/
def split_dotdot : List Char → List (List Char)
  | [] => [[]]
  | '.' :: '.' :: rest => [] :: split_dotdot rest
  | c :: rest =>
    match split_dotdot rest with
    | [] => [[c]]
    | h :: t => (c :: h) :: t

/-- `u32::from_be_bytes` over a 4-byte list. -/
def be_bytes_to_nat (l : List Nat) : Nat :=
  l.foldl (fun a b => a * 256 + b) 0

/-- Embedding of `UnicodeValue::from_str` (src/main.rs lines 79-110): strip
every `0x` and `U+`, hex-decode (the hex_string crate requires an even number
of valid hex digits), zero-pad the byte vector on the left to 4 bytes and read
it big-endian.  The source then calls `char::from_u32_unchecked`; the embedding
keeps the numeric value.  A decoded vector longer than 4 bytes makes
`copy_from_slice` panic; that abort is modelled as a `General` error. -/
def unicode_value_from_str (s : List Char) : Except AppError Nat :=
  let the_arg := replace2 'U' '+' (replace2 '0' 'x' s)
  match decode_hex_pairs the_arg with
  | none =>
    Except.error (AppError.FormattedMessage
      "Failed to convert base name to str; expected to be multiples of 2")
  | some the_arg_bytes =>
    if the_arg_bytes.length ≤ 4 then
      Except.ok (be_bytes_to_nat (List.replicate (4 - the_arg_bytes.length) 0 ++ the_arg_bytes))
    else
      Except.error (AppError.General "panic: copy_from_slice source length mismatch")

/-- Embedding of `UnicodeRange::from_str` (src/main.rs lines 55-68): split on
`".."`, require exactly two pieces, parse each as a `UnicodeValue`. -/
def unicode_range_from_str (s : List Char) : Except AppError (Nat × Nat) :=
  match split_dotdot s with
  | [p0, p1] =>
    match unicode_value_from_str p0 with
    | Except.error e => Except.error e
    | Except.ok start =>
      match unicode_value_from_str p1 with
      | Except.error e => Except.error e
      | Except.ok stop => Except.ok (start, stop)
  | _ => Except.error (AppError.General "Failed to parse unicode range, invalid format")

/-- Unicode scalar values: below 0x110000 and outside the surrogate block. -/
def is_scalar_value_b (c : Nat) : Bool :=
  decide (c < 0x110000) && !(decide (0xD800 ≤ c) && decide (c < 0xE000))

/-- `(start..=end).collect::<Vec<char>>()`: every scalar value from `start`
to `stop` inclusive, in order; the `char` iterator skips the surrogate block
and an inverted range is empty. -/
def collect_char_range (start stop : Nat) : List Nat :=
  (List.range' start (stop + 1 - start)).filter is_scalar_value_b

/-- Results of the Unicode general-category predicates from the
unicode_categories crate and `char`, consumed as external classification
oracles by the default filter. -/
structure CharCategoryOracle where
  is_alphabetic : Nat → Bool
  is_alphanumeric : Nat → Bool
  is_letter_other : Nat → Bool
  is_symbol_other : Nat → Bool
  is_punctuation : Nat → Bool
  is_letter_modifier : Nat → Bool
  is_symbol_modifier : Nat → Bool
  is_symbol : Nat → Bool

/-- The default candidate set built by `main` when no range is supplied:
the full scalar-value space filtered by the disjunction of category
predicates. -/
def default_candidates (cat : CharCategoryOracle) : List Nat :=
  (collect_char_range 0 0x10FFFF).filter (fun c =>
    cat.is_alphabetic c || cat.is_alphanumeric c || cat.is_letter_other c ||
    cat.is_symbol_other c || cat.is_punctuation c || cat.is_letter_modifier c ||
    cat.is_symbol_modifier c || cat.is_symbol c)

/-- Embedding of `get_base_name` (src/main.rs lines 173-186).  The oracle
models `Path::new(fp).file_name()` composed with `OsStr::to_str`: outer `none`
when the path has no final segment, `some none` when the segment is not valid
unicode. -/
def get_base_name (file_name_os : String → Option (Option String))
    (file_path : String) : Except AppError String :=
  match file_name_os file_path with
  | none =>
    Except.error (AppError.FormattedMessage
      ("Failed to get file name for file path: " ++ file_path))
  | some none => Except.error (AppError.General "Failed to convert base name to str")
  | some (some base_name) => Except.ok base_name

/-- Embedding of `CliArgs` after clap parsing; the optional range holds the
two parsed scalar values. -/
structure CliArgs where
  font_file : String
  output_dir : String
  color : Color
  img_size : Nat
  unicode_range : Option (Nat × Nat)

/-- The external effects `main` consumes: `fs::read`, `Font::try_from_vec`,
path base-name resolution, `fs::create_dir_all`, `image.save`, and the
category classification used by the default filter. -/
structure Oracles where
  read_font_file : Except AppError (List Nat)
  try_font_from_vec : List Nat → Option Font
  file_name_os : String → Option (Option String)
  create_dir_all : String → Option AppError
  save : String → Canvas → Option AppError
  cat : CharCategoryOracle

/-- Embedding of `main` (src/main.rs lines 315-397), with each `?` written as
an explicit match.  The parallel and sequential variants run the same
per-candidate map; the sequential order is modelled.  After the output
directory is created, the run is infallible: per-glyph errors are dropped by
`filter_map(|x| x.ok())` and `main` returns `Ok(())`. -/
def main_model (o : Oracles) (args : CliArgs) : Except AppError Unit :=
  match o.read_font_file with
  | Except.error e => Except.error e
  | Except.ok font_data =>
    match o.try_font_from_vec font_data with
    | none =>
      Except.error (AppError.FormattedMessage
        ("Failed to parse data from file: " ++ args.font_file))
    | some font =>
      let valid_unicode_ranges : List Nat :=
        match args.unicode_range with
        | some r => collect_char_range r.1 r.2
        | none => default_candidates o.cat
      let output_color := (args.color.red, args.color.green, args.color.blue)
      let img_size := args.img_size
      match get_base_name o.file_name_os args.font_file with
      | Except.error e => Except.error e
      | Except.ok base_name =>
        let base_dir := args.output_dir ++ "/" ++ base_name
        match o.create_dir_all base_dir with
        | some e => Except.error e
        | none =>
          let _image_paths :=
            run_batch o.save font img_size output_color base_dir valid_unicode_ranges
          Except.ok ()

/-- Unit-scale bounding box of the scenario glyph from the spec: width 500,
height 700 font units. -/
def bb_A : QRect :=
  ⟨⟨0, 0⟩, ⟨500, 700⟩⟩

/-- A defined glyph (id 1) with the scenario bounding box; its positioned
data is irrelevant to the scale computation. -/
def glyph_A : Glyph :=
  ⟨1, some bb_A, fun _ => ⟨none, []⟩⟩

/-- A concrete pixel bounding box: width 3, height 5. -/
def bb_px : IRect :=
  ⟨⟨0, 0⟩, ⟨3, 5⟩⟩

/-- A 1-by-1 pixel bounding box. -/
def bb_px1 : IRect :=
  ⟨⟨0, 0⟩, ⟨1, 1⟩⟩

/-- A save oracle that always succeeds. -/
def save_ok : String → Canvas → Option AppError :=
  fun _ _ => none

/-- A glyph resolving to the .notdef placeholder (id 0). -/
def glyph_notdef : Glyph :=
  ⟨0, none, fun _ => ⟨none, []⟩⟩

/-- A font every lookup of which yields the .notdef placeholder. -/
def font_notdef : Font :=
  ⟨fun _ => glyph_notdef⟩

/-- A font with one defined glyph everywhere: unit box 2 by 2, pixel box 1 by
1 at every scale, a single fully covered pixel. -/
def font_tiny : Font :=
  ⟨fun _ => ⟨1, some ⟨⟨0, 0⟩, ⟨2, 2⟩⟩, fun _ => ⟨some bb_px1, [(0, 0, 1)]⟩⟩⟩

/-- A category oracle that rejects everything (the default filter is not
exercised by the example runs). -/
def cat_none : CharCategoryOracle :=
  ⟨fun _ => false, fun _ => false, fun _ => false, fun _ => false,
   fun _ => false, fun _ => false, fun _ => false, fun _ => false⟩

/-- Oracles for a run in which every external step succeeds. -/
def oracles_ok : Oracles :=
  { read_font_file := Except.ok []
    try_font_from_vec := fun _ => some font_tiny
    file_name_os := fun _ => some (some "font.ttf")
    create_dir_all := fun _ => none
    save := save_ok
    cat := cat_none }

/-- Arguments with an explicit singleton range. -/
def args_single : CliArgs :=
  { font_file := "fonts/font.ttf"
    output_dir := "./out"
    color := ⟨255, 255, 255⟩
    img_size := 128
    unicode_range := some (65, 65) }

/-- Arguments with an inverted explicit range (start greater than end). -/
def args_inverted : CliArgs :=
  { font_file := "fonts/font.ttf"
    output_dir := "./out"
    color := ⟨255, 255, 255⟩
    img_size := 128
    unicode_range := some (66, 65) }

lemma max_dimension_bb_A : max_dimension_of bb_A = 700 := by
  norm_num [max_dimension_of, bb_A]

/-- C1 counterexample: with the unit-scale 500-by-700 glyph of the spec
scenario and img_size 128, `get_scale` returns `Ok(0.0)`: the computed scale
`floor(128 / 700) = 0` is handed back as a success, not as any error, so the
claimed `InvalidScale` failure (a variant that does not even exist in
`AppError`) does not happen. -/
theorem get_scale_small_img_returns_ok_zero :
    get_scale glyph_A 128 = Except.ok 0 := by
  have hf : ⌊(128 : ℚ) / max_dimension_of bb_A⌋ = 0 := by
    rw [max_dimension_bb_A, Int.floor_eq_iff] <;> norm_num
  simp [get_scale, glyph_A, hf]

/-- C1 (amended): whenever the unit-scale bounding box exists, `get_scale`
returns `Ok` of `floor(img_size / maxDimension)` even when that value is less
than or equal to zero; no `InvalidScale` (or any other) error is produced for
a non-positive scale. -/
theorem get_scale_ok_even_when_nonpositive (g : Glyph) (img_size : Nat) (bb : QRect)
    (hbb : g.exact_bounding_box_unit = some bb)
    (hnp : ⌊(img_size : ℚ) / max_dimension_of bb⌋ ≤ 0) :
    get_scale g img_size
      = Except.ok ((⌊(img_size : ℚ) / max_dimension_of bb⌋ : ℤ) : ℚ) := by
  simp [get_scale, hbb]

/-- C1 witness: the amended statement evaluated on the spec scenario. -/
theorem get_scale_ok_even_when_nonpositive_witness :
    get_scale glyph_A 128
      = Except.ok ((⌊(128 : ℚ) / max_dimension_of bb_A⌋ : ℤ) : ℚ) :=
  get_scale_ok_even_when_nonpositive glyph_A 128 bb_A rfl
    (by have h : ⌊((128 : Nat) : ℚ) / max_dimension_of bb_A⌋ = 0 := by
          rw [max_dimension_bb_A, Int.floor_eq_iff] <;> norm_num
        omega)

/-- C3: for any glyph whose unit-scale bounding box exists with nonzero
maximum dimension, `get_scale` is deterministic (it depends only on the
bounding box and img_size), the returned scale is exactly
`floor(img_size / maxDimension)` with `maxDimension = max(h, w)` in absolute
value, and `scale * maxDimension <= img_size`. -/
theorem get_scale_floor_deterministic_bounded (g : Glyph) (img_size : Nat) (bb : QRect)
    (hbb : g.exact_bounding_box_unit = some bb)
    (hnz : max_dimension_of bb ≠ 0) :
    (∀ g2 : Glyph, g2.exact_bounding_box_unit = g.exact_bounding_box_unit →
      get_scale g2 img_size = get_scale g img_size)
    ∧ get_scale g img_size
        = Except.ok ((⌊(img_size : ℚ) / max_dimension_of bb⌋ : ℤ) : ℚ)
    ∧ ((⌊(img_size : ℚ) / max_dimension_of bb⌋ : ℤ) : ℚ) * max_dimension_of bb
        ≤ (img_size : ℚ) := by
  have h0 : 0 ≤ max_dimension_of bb := le_trans (abs_nonneg _) le_sup_left
  have hpos : 0 < max_dimension_of bb := lt_of_le_of_ne h0 (Ne.symm hnz)
  refine ⟨fun g2 h2 => by simp [get_scale, h2, hbb], by simp [get_scale, hbb], ?_⟩
  have h1 : ((⌊(img_size : ℚ) / max_dimension_of bb⌋ : ℤ) : ℚ)
      ≤ (img_size : ℚ) / max_dimension_of bb := Int.floor_le _
  calc ((⌊(img_size : ℚ) / max_dimension_of bb⌋ : ℤ) : ℚ) * max_dimension_of bb
      ≤ ((img_size : ℚ) / max_dimension_of bb) * max_dimension_of bb :=
        mul_le_mul_of_nonneg_right h1 hpos.le
    _ = (img_size : ℚ) := div_mul_cancel₀ _ hnz

/-- C3 witness: the spec scenario glyph at img_size 1024 gets scale
`floor(1024 / 700) = 1`. -/
theorem get_scale_floor_deterministic_bounded_witness :
    get_scale glyph_A 1024
      = Except.ok ((⌊(1024 : ℚ) / max_dimension_of bb_A⌋ : ℤ) : ℚ) :=
  (get_scale_floor_deterministic_bounded glyph_A 1024 bb_A rfl
    (by rw [max_dimension_bb_A]; norm_num)).2.1

/-- C4: the canvas allocated for a pixel bounding box is square with side
`max(glyph_height, glyph_width)` and starts fully transparent: every pixel of
the fresh buffer has alpha 0 (indeed is rgba(0,0,0,0)). -/
theorem canvas_square_and_transparent (bb : IRect) :
    (allocate_canvas bb).width = max bb.get_glyph_height bb.get_glyph_width
    ∧ (allocate_canvas bb).height = max bb.get_glyph_height bb.get_glyph_width
    ∧ ∀ x y, (allocate_canvas bb).pixels x y = ⟨0, 0, 0, 0⟩ :=
  ⟨rfl, rfl, fun _ _ => rfl⟩

/-- C5: every coverage callback with x below the bounding-box width and y
below the bounding-box height is written inside the side-by-side canvas:
`x + xOffset < side` and `y + yOffset < side`. -/
theorem composite_writes_in_bounds (bb : IRect) (x y : Nat)
    (hx : x < bb.get_glyph_width) (hy : y < bb.get_glyph_height) :
    x + x_offset_of bb < canvas_side bb ∧ y + y_offset_of bb < canvas_side bb := by
  unfold x_offset_of y_offset_of canvas_side at *
  omega

/-- C5 witness: the bound evaluated on a concrete 3-by-5 pixel box. -/
theorem composite_writes_in_bounds_witness :
    2 + x_offset_of bb_px < canvas_side bb_px ∧ 4 + y_offset_of bb_px < canvas_side bb_px :=
  composite_writes_in_bounds bb_px 2 4 (by decide) (by decide)

/-- Modelled from the spec: round to nearest (half up), the claimed alpha
mapping `round(coverage * 255)`. -/
def spec_round (q : ℚ) : ℤ :=
  ⌊q + 1 / 2⌋

/-- C6 counterexample: at coverage 1/2 the program writes alpha
`(0.5 * 255.0) as u8 = 127` (truncation), while the claimed
`round(0.5 * 255) = 128`; so the written alpha is not `round(v * 255)`. -/
theorem alpha_truncates_not_rounds :
    (draw_into bb_px1 (255, 255, 255) [(0, 0, (1 : ℚ) / 2)]
        (allocate_canvas bb_px1)).pixels (x_offset_of bb_px1) (y_offset_of bb_px1)
      = ⟨255, 255, 255, 127⟩
    ∧ spec_round ((1 : ℚ) / 2 * 255) = 128 := by
  have hf : ⌊(2⁻¹ : ℚ) * 255⌋ = 127 := by
    rw [Int.floor_eq_iff] <;> norm_num
  have hg : ⌊(2⁻¹ : ℚ) * 255 + 2⁻¹⌋ = 128 := by
    rw [Int.floor_eq_iff] <;> norm_num
  constructor
  · simp [draw_into, Canvas.put_pixel, pixel_value, f32_as_u8, hf]
  · simp [spec_round, hg]

/-- C6 (amended): for a covered pixel with coverage v in [0, 1], the written
pixel carries the foreground RGB channels exactly and alpha
`trunc(v * 255)` (floor, since v is nonnegative); the alpha is derived only
from the coverage - the input `Color` has no alpha field at all. -/
theorem composited_pixel_color_and_alpha (bb : IRect) (c : Nat × Nat × Nat)
    (x y : Nat) (v : ℚ) (img : Canvas) (h0 : 0 ≤ v) (h1 : v ≤ 1) :
    (draw_into bb c [(x, y, v)] img).pixels (x + x_offset_of bb) (y + y_offset_of bb)
      = ⟨c.1, c.2.1, c.2.2, (⌊v * 255⌋).toNat⟩ := by
  have hle : ⌊v * 255⌋ ≤ 255 := by
    have hv : v * 255 ≤ 255 := by nlinarith
    have h255 : (255 : ℤ) = ⌊(255 : ℚ)⌋ := by norm_num
    rw [h255]
    exact Int.floor_le_floor hv
  have hmin : min (⌊v * 255⌋).toNat 255 = (⌊v * 255⌋).toNat := by omega
  simp [draw_into, Canvas.put_pixel, pixel_value, f32_as_u8, hmin]

/-- C6 witness: the amended statement evaluated at full coverage on the
1-by-1 box. -/
theorem composited_pixel_color_and_alpha_witness :
    (draw_into bb_px1 (0, 128, 255) [(0, 0, (1 : ℚ))]
        (allocate_canvas bb_px1)).pixels (0 + x_offset_of bb_px1) (0 + y_offset_of bb_px1)
      = ⟨0, 128, 255, (⌊(1 : ℚ) * 255⌋).toNat⟩ :=
  composited_pixel_color_and_alpha bb_px1 (0, 128, 255) 0 0 1
    (allocate_canvas bb_px1) (by norm_num) (by norm_num)

/-- C7 counterexample: a code point resolving to the .notdef placeholder is
treated as an error by `create_glyph_img`: it returns
`Err(GlyphNotDefined)` instead of being a non-error filtered case. -/
theorem notdef_yields_error_value :
    create_glyph_img save_ok font_notdef 65 128 (255, 255, 255) "out"
      = Except.error (AppError.GlyphNotDefined 65) := by
  decide

lemma run_batch_append (save : String → Canvas → Option AppError) (font : Font)
    (img_size : Nat) (col : Nat × Nat × Nat) (dir : String) (xs ys : List Nat) :
    run_batch save font img_size col dir (xs ++ ys)
      = run_batch save font img_size col dir xs ++ run_batch save font img_size col dir ys := by
  simp [run_batch, batch_attempts, List.filterMap_append]

lemma run_batch_cons_error (save : String → Canvas → Option AppError) (font : Font)
    (img_size : Nat) (col : Nat × Nat × Nat) (dir : String) (u : Nat) (ys : List Nat)
    (e : AppError) (h : create_glyph_img save font u img_size col dir = Except.error e) :
    run_batch save font img_size col dir (u :: ys)
      = run_batch save font img_size col dir ys := by
  simp [run_batch, batch_attempts, h, Except.toOption]

/-- C7 (amended): a code point whose glyph id is 0 makes `create_glyph_img`
return the dedicated `GlyphNotDefined` error before any fallible stage
(scaling, rasterization, writing) is consulted - the result is the same for
every save oracle and independent of the glyph's geometry; the batch filter
then drops it like any other per-item failure, so it contributes no output
record and all other candidates are still processed. -/
theorem notdef_excluded_via_error_before_fallible_stages
    (save : String → Canvas → Option AppError) (font : Font) (u img_size : Nat)
    (output_color : Nat × Nat × Nat) (base_dir : String)
    (h : (font.glyph u).id = 0) :
    create_glyph_img save font u img_size output_color base_dir
      = Except.error (AppError.GlyphNotDefined u)
    ∧ run_batch save font img_size output_color base_dir [u] = []
    ∧ ∀ xs ys, run_batch save font img_size output_color base_dir (xs ++ u :: ys)
        = run_batch save font img_size output_color base_dir xs
          ++ run_batch save font img_size output_color base_dir ys := by
  have h1 : create_glyph_img save font u img_size output_color base_dir
      = Except.error (AppError.GlyphNotDefined u) := by
    simp [create_glyph_img, h]
  refine ⟨h1, by simp [run_batch, batch_attempts, h1, Except.toOption], fun xs ys => ?_⟩
  rw [run_batch_append, run_batch_cons_error save font img_size output_color base_dir u ys _ h1]

/-- C7 witness: the amended statement evaluated on the all-notdef font; the
candidates 66 and 67 around the notdef code point 65 are still processed. -/
theorem notdef_excluded_witness :
    run_batch save_ok font_notdef 128 (255, 255, 255) "out" [65] = [] :=
  (notdef_excluded_via_error_before_fallible_stages save_ok font_notdef 65 128
    (255, 255, 255) "out" (by decide)).2.1

lemma hexCharVal_hexDigitChar : ∀ n < 16, hexCharVal (hexDigitChar n) = some n := by
  decide

lemma isLowerHexChar_hexDigitChar : ∀ n < 16, isLowerHexChar (hexDigitChar n) = true := by
  decide

lemma decode_hex_pairs_byte (b : Nat) (hb : b < 256) (rest : List Char) :
    decode_hex_pairs (byteHexChars b ++ rest)
      = (decode_hex_pairs rest).map (fun bs => b :: bs) := by
  have e1 := hexCharVal_hexDigitChar (b / 16) (by omega)
  have e2 := hexCharVal_hexDigitChar (b % 16) (by omega)
  have hb2 : b / 16 * 16 + b % 16 = b := by omega
  simp only [byteHexChars, List.cons_append, List.nil_append]
  cases hres : decode_hex_pairs rest <;>
    simp [decode_hex_pairs, e1, e2, hres, hb2]

lemma mem_byteHexChars_lower (b : Nat) (hb : b < 256) (ch : Char)
    (h : ch ∈ byteHexChars b) : isLowerHexChar ch = true := by
  simp only [byteHexChars, List.mem_cons, List.not_mem_nil, or_false] at h
  rcases h with h | h <;>
    (subst h; exact isLowerHexChar_hexDigitChar _ (by omega))

lemma utf16_units_lt (c : Nat) (h : c < 0x110000) :
    (utf16_units c).1 < 65536 ∧ (utf16_units c).2 < 65536 := by
  unfold utf16_units
  split_ifs with hc <;> simp <;> omega

/-- C2 counterexample: for the supplementary code point U+10000 the program
produces the string "dc00d800": the low surrogate unit comes first, so the
claimed most-significant-unit-first big-endian decoding does not return
0x10000 (it fails, the leading unit being a low surrogate). -/
theorem be_hex_msfirst_decode_fails_supplementary :
    convert_to_be_hex_string 0x10000 = "dc00d800"
    ∧ spec_decode_be_hex (convert_to_be_hex_string 0x10000) = none := by
  decide

lemma reconstruct_code_order_units (u0 u1 : Nat) (h0 : u0 < 65536) (h1 : u1 < 65536) :
    reconstruct_code_order [u1 / 256, u1 % 256, u0 / 256, u0 % 256]
      = (if u1 = 0 then some u0
         else if 0xD800 ≤ u0 ∧ u0 < 0xDC00 ∧ 0xDC00 ≤ u1 ∧ u1 < 0xE000 then
           some (0x10000 + (u0 - 0xD800) * 0x400 + (u1 - 0xDC00))
         else none) := by
  have e1 : u1 / 256 * 256 + u1 % 256 = u1 := by omega
  have e0 : u0 / 256 * 256 + u0 % 256 = u0 := by omega
  simp only [reconstruct_code_order, e1, e0]

set_option maxRecDepth 4000 in
/-- C2 (amended): for every Unicode scalar value the produced identifier is
an 8-character lowercase hexadecimal string, but the two UTF-16 units appear
in reversed (second-slot-first) byte order; decoding the four bytes with the
first pair as the trailing UTF-16 unit (zero padding for BMP, the low
surrogate for supplementary code points) and the second pair as the leading
unit recovers the original code point. -/
theorem be_hex_string_shape_and_swapped_roundtrip (c : Nat)
    (hlt : c < 0x110000) (hns : ¬(0xD800 ≤ c ∧ c < 0xE000)) :
    (convert_to_be_hex_string c).length = 8
    ∧ (∀ ch ∈ (convert_to_be_hex_string c).data, isLowerHexChar ch = true)
    ∧ decode_swapped_hex (convert_to_be_hex_string c) = some c := by
  obtain ⟨hu0, hu1⟩ := utf16_units_lt c hlt
  have hb0 : (utf16_units c).2 / 256 < 256 := by omega
  have hb1 : (utf16_units c).2 % 256 < 256 := by omega
  have hb2 : (utf16_units c).1 / 256 < 256 := by omega
  have hb3 : (utf16_units c).1 % 256 < 256 := by omega
  have hdata : (convert_to_be_hex_string c).data
      = byteHexChars ((utf16_units c).2 / 256) ++ (byteHexChars ((utf16_units c).2 % 256)
        ++ (byteHexChars ((utf16_units c).1 / 256)
          ++ (byteHexChars ((utf16_units c).1 % 256) ++ []))) := by
    simp [convert_to_be_hex_string, to_be_bytes]
  have hdec : decode_hex_pairs (convert_to_be_hex_string c).data
      = some [(utf16_units c).2 / 256, (utf16_units c).2 % 256,
              (utf16_units c).1 / 256, (utf16_units c).1 % 256] := by
    rw [hdata, decode_hex_pairs_byte _ hb0, decode_hex_pairs_byte _ hb1,
        decode_hex_pairs_byte _ hb2, decode_hex_pairs_byte _ hb3]
    simp [decode_hex_pairs]
  refine ⟨?_, ?_, ?_⟩
  · have hlen : (convert_to_be_hex_string c).length = (convert_to_be_hex_string c).data.length := rfl
    rw [hlen, hdata]
    simp [byteHexChars]
  · intro ch hch
    rw [hdata] at hch
    simp only [List.append_nil, List.mem_append] at hch
    rcases hch with h | h | h | h
    · exact mem_byteHexChars_lower _ hb0 _ h
    · exact mem_byteHexChars_lower _ hb1 _ h
    · exact mem_byteHexChars_lower _ hb2 _ h
    · exact mem_byteHexChars_lower _ hb3 _ h
  · rw [decode_swapped_hex, hdec]
    simp only [Option.bind]
    rw [reconstruct_code_order_units (utf16_units c).1 (utf16_units c).2 hu0 hu1]
    by_cases hc : c < 0x10000
    · have h1 : (utf16_units c).1 = c := by simp [utf16_units, hc]
      have h2 : (utf16_units c).2 = 0 := by simp [utf16_units, hc]
      rw [h1, h2, if_pos rfl]
    · have h1 : (utf16_units c).1 = 0xD800 + (c - 0x10000) / 0x400 := by
        simp [utf16_units, hc]
      have h2 : (utf16_units c).2 = 0xDC00 + (c - 0x10000) % 0x400 := by
        simp [utf16_units, hc]
      rw [h1, h2]
      have hne : 0xDC00 + (c - 0x10000) % 0x400 ≠ 0 := by omega
      have hcond : 0xD800 ≤ 0xD800 + (c - 0x10000) / 0x400
          ∧ 0xD800 + (c - 0x10000) / 0x400 < 0xDC00
          ∧ 0xDC00 ≤ 0xDC00 + (c - 0x10000) % 0x400
          ∧ 0xDC00 + (c - 0x10000) % 0x400 < 0xE000 :=
        ⟨by omega, by omega, by omega, by omega⟩
      rw [if_neg hne, if_pos hcond]
      simp only [Option.some.injEq]
      omega

/-- C2 witness: the amended round-trip evaluated at the supplementary code
point U+1F600. -/
theorem be_hex_swapped_roundtrip_witness :
    decode_swapped_hex (convert_to_be_hex_string 0x1F600) = some 0x1F600 :=
  (be_hex_string_shape_and_swapped_roundtrip 0x1F600 (by decide) (by decide)).2.2

lemma except_toOption_eq_some {e : Type} {a : Type} (r : Except e a) (v : a) :
    r.toOption = some v ↔ r = Except.ok v := by
  cases r <;> simp [Except.toOption]

lemma main_model_ok (o : Oracles) (args : CliArgs)
    (font_data : List Nat) (fnt : Font) (base_name : String)
    (hread : o.read_font_file = Except.ok font_data)
    (hparse : o.try_font_from_vec font_data = some fnt)
    (hname : o.file_name_os args.font_file = some (some base_name))
    (hdir : o.create_dir_all (args.output_dir ++ "/" ++ base_name) = none) :
    main_model o args = Except.ok () := by
  simp [main_model, hread, hparse, get_base_name, hname, hdir]

/-- C8: the batch runner maps `create_glyph_img` over the candidate list
exactly once per candidate and in order; a per-glyph error contributes
nothing to the collected results while every sibling is still processed; the
collected results are exactly the values of the successful attempts; and once
the global setup steps (font read, font parse, base-name resolution, output
directory creation) succeed, `main` returns `Ok(())` no matter how many
per-glyph attempts failed. -/
theorem batch_attempts_all_and_exit_zero (o : Oracles) (args : CliArgs)
    (font_data : List Nat) (fnt : Font) (base_name : String)
    (hread : o.read_font_file = Except.ok font_data)
    (hparse : o.try_font_from_vec font_data = some fnt)
    (hname : o.file_name_os args.font_file = some (some base_name))
    (hdir : o.create_dir_all (args.output_dir ++ "/" ++ base_name) = none) :
    main_model o args = Except.ok ()
    ∧ (∀ save f i col dir cands,
        (batch_attempts save f i col dir cands).length = cands.length)
    ∧ (∀ save f i col dir cands n,
        (batch_attempts save f i col dir cands).get? n
          = (cands.get? n).map (fun u => create_glyph_img save f u i col dir))
    ∧ (∀ save f i col dir u e xs ys,
        create_glyph_img save f u i col dir = Except.error e →
        run_batch save f i col dir (xs ++ u :: ys)
          = run_batch save f i col dir xs ++ run_batch save f i col dir ys)
    ∧ (∀ save f i col dir cands r,
        r ∈ run_batch save f i col dir cands
          ↔ ∃ u ∈ cands, create_glyph_img save f u i col dir = Except.ok r) := by
  refine ⟨main_model_ok o args font_data fnt base_name hread hparse hname hdir,
    fun save f i col dir cands => by simp [batch_attempts],
    fun save f i col dir cands n => by simp [batch_attempts, List.get?_map],
    fun save f i col dir u e xs ys hu => ?_,
    fun save f i col dir cands r => ?_⟩
  · rw [run_batch_append, run_batch_cons_error save f i col dir u ys e hu]
  · simp only [run_batch, batch_attempts, List.mem_filterMap, List.mem_map]
    constructor
    · rintro ⟨a, ⟨u, hu, rfl⟩, hopt⟩
      exact ⟨u, hu, (except_toOption_eq_some _ _).mp hopt⟩
    · rintro ⟨u, hu, heq⟩
      exact ⟨_, ⟨u, hu, rfl⟩, by simp [heq, Except.toOption]⟩

/-- C8 witness: the policy evaluated on a concrete run whose setup succeeds. -/
theorem batch_attempts_all_and_exit_zero_witness :
    main_model oracles_ok args_single = Except.ok () :=
  (batch_attempts_all_and_exit_zero oracles_ok args_single [] font_tiny "font.ttf"
    rfl rfl rfl rfl).1

lemma hexByteVal_bounds (b d : Nat) (h : hexByteVal b = some d) :
    d < 16 ∧ b ≠ 43 ∧ b ≠ 45 := by
  unfold hexByteVal at h
  split_ifs at h with h1 h2 h3 <;> simp_all <;> omega

lemma radix16_two_digits (b1 b2 d1 d2 : Nat)
    (h1 : hexByteVal b1 = some d1) (h2 : hexByteVal b2 = some d2) :
    u8_from_str_radix_16 [b1, b2] = Except.ok (d1 * 16 + d2) := by
  obtain ⟨hd1, hs1, hs1n⟩ := hexByteVal_bounds _ _ h1
  obtain ⟨hd2, -, -⟩ := hexByteVal_bounds _ _ h2
  have e1 : d1 ≤ 255 := by omega
  have e2 : d1 * 16 + d2 ≤ 255 := by omega
  simp [u8_from_str_radix_16, hs1, hs1n, parse_hex_u8_digits, h1, h2, e1, e2]

lemma u8_radix_result (s : List Nat) :
    (∃ v, u8_from_str_radix_16 s = Except.ok v)
    ∨ u8_from_str_radix_16 s = Except.error AppError.ParseIntError := by
  rcases s with _ | ⟨b, rest⟩
  · right
    rfl
  · simp only [u8_from_str_radix_16]
    by_cases hd : (if b = 43 ∨ b = 45 then rest else b :: rest) = []
    · rw [if_pos hd]
      right
      rfl
    · rw [if_neg hd]
      rcases hp : parse_hex_u8_digits 0 (if b = 43 ∨ b = 45 then rest else b :: rest)
        with _ | v
      · right
        rfl
      · dsimp only
        by_cases hneg : b = 45 ∧ v ≠ 0
        · rw [if_pos hneg]
          right
          rfl
        · rw [if_neg hneg]
          left
          exact ⟨v, rfl⟩

lemma u8_radix_error_parse (s : List Nat) (e : AppError)
    (h : u8_from_str_radix_16 s = Except.error e) : e = AppError.ParseIntError := by
  rcases u8_radix_result s with ⟨v, hv⟩ | hv
  · rw [hv] at h
    simp at h
  · rw [hv] at h
    exact (Except.error.inj h).symm

lemma list_len7 {A : Type} : ∀ (s : List A), s.length = 7 →
    ∃ a b c d e f g, s = [a, b, c, d, e, f, g]
  | [a, b, c, d, e, f, g], _ => ⟨a, b, c, d, e, f, g, rfl⟩
  | [], h => by simp at h
  | [_], h => by simp at h
  | [_, _], h => by simp at h
  | [_, _, _], h => by simp at h
  | [_, _, _, _], h => by simp at h
  | [_, _, _, _, _], h => by simp at h
  | [_, _, _, _, _, _], h => by simp at h
  | _ :: _ :: _ :: _ :: _ :: _ :: _ :: _ :: _, h => by simp at h <;> omega

/-- C9: `Color::from_str` never looks at the first byte: every 7-byte input
whose bytes 1 through 6 are hex digits parses successfully whatever byte 0
is, and an input of byte length 7 can never be rejected with
`ColorParseError` (the length-based rejection); invalid digits surface as
`ParseIntError` instead. -/
theorem color_from_str_ignores_marker :
    (∀ s : List Nat, s.length = 7 → (∀ b ∈ s.drop 1, (hexByteVal b).isSome) →
      (color_from_str s).isOk = true)
    ∧ (∀ s : List Nat, s.length = 7 →
        ∀ p, color_from_str s ≠ Except.error (AppError.ColorParseError p)) := by
  constructor
  · intro s h7 hhex
    obtain ⟨a, b1, b2, b3, b4, b5, b6, rfl⟩ := list_len7 s h7
    have g1 := hhex b1 (by simp)
    have g2 := hhex b2 (by simp)
    have g3 := hhex b3 (by simp)
    have g4 := hhex b4 (by simp)
    have g5 := hhex b5 (by simp)
    have g6 := hhex b6 (by simp)
    obtain ⟨d1, e1⟩ := Option.isSome_iff_exists.mp g1
    obtain ⟨d2, e2⟩ := Option.isSome_iff_exists.mp g2
    obtain ⟨d3, e3⟩ := Option.isSome_iff_exists.mp g3
    obtain ⟨d4, e4⟩ := Option.isSome_iff_exists.mp g4
    obtain ⟨d5, e5⟩ := Option.isSome_iff_exists.mp g5
    obtain ⟨d6, e6⟩ := Option.isSome_iff_exists.mp g6
    have r1 := radix16_two_digits b1 b2 d1 d2 e1 e2
    have r2 := radix16_two_digits b3 b4 d3 d4 e3 e4
    have r3 := radix16_two_digits b5 b6 d5 d6 e5 e6
    simp [color_from_str, r1, r2, r3, Except.isOk, Except.toBool]
  · intro s h7 p hcontra
    obtain ⟨a, b1, b2, b3, b4, b5, b6, rfl⟩ := list_len7 s h7
    have hlen : ¬(([a, b1, b2, b3, b4, b5, b6] : List Nat).length ≠ 7) := by simp
    rw [color_from_str, if_neg hlen] at hcontra
    have hs1 : (([a, b1, b2, b3, b4, b5, b6] : List Nat).drop 1).take 2 = [b1, b2] := rfl
    have hs2 : (([a, b1, b2, b3, b4, b5, b6] : List Nat).drop 3).take 2 = [b3, b4] := rfl
    have hs3 : (([a, b1, b2, b3, b4, b5, b6] : List Nat).drop 5).take 2 = [b5, b6] := rfl
    rw [hs1, hs2, hs3] at hcontra
    cases hr1 : u8_from_str_radix_16 [b1, b2] with
    | error e =>
      rw [hr1] at hcontra
      have he := u8_radix_error_parse _ _ hr1
      subst he
      simp at hcontra
    | ok red =>
      rw [hr1] at hcontra
      cases hr2 : u8_from_str_radix_16 [b3, b4] with
      | error e =>
        rw [hr2] at hcontra
        have he := u8_radix_error_parse _ _ hr2
        subst he
        simp at hcontra
      | ok green =>
        rw [hr2] at hcontra
        cases hr3 : u8_from_str_radix_16 [b5, b6] with
        | error e =>
          rw [hr3] at hcontra
          have he := u8_radix_error_parse _ _ hr3
          subst he
          simp at hcontra
        | ok blue =>
          rw [hr3] at hcontra
          simp at hcontra

/-- C9 witness: the 7-byte input starting with the letter x instead of the
hash marker parses successfully. -/
theorem color_from_str_ignores_marker_witness :
    (color_from_str [120, 102, 102, 48, 48, 102, 102]).isOk = true :=
  color_from_str_ignores_marker.1 [120, 102, 102, 48, 48, 102, 102]
    (by decide) (by decide)

/-- C10: an explicit range with start greater than end yields an empty
candidate list (the inclusive char range iterator produces nothing), so the
batch attempts no glyph and writes no file, `main` still returns `Ok(())`,
and the range parser itself accepts an inverted textual range such as
"0x0042..0x0041" without any error. -/
theorem inverted_range_empty_and_ok (o : Oracles) (args : CliArgs) (start stop : Nat)
    (font_data : List Nat) (fnt : Font) (base_name : String)
    (hr : args.unicode_range = some (start, stop))
    (hlt : stop < start)
    (hread : o.read_font_file = Except.ok font_data)
    (hparse : o.try_font_from_vec font_data = some fnt)
    (hname : o.file_name_os args.font_file = some (some base_name))
    (hdir : o.create_dir_all (args.output_dir ++ "/" ++ base_name) = none) :
    collect_char_range start stop = []
    ∧ (∀ save f i col dir, batch_attempts save f i col dir (collect_char_range start stop) = [])
    ∧ (∀ save f i col dir, run_batch save f i col dir (collect_char_range start stop) = [])
    ∧ main_model o args = Except.ok ()
    ∧ unicode_range_from_str (String.data "0x0042..0x0041") = Except.ok (66, 65) := by
  have h0 : stop + 1 - start = 0 := by omega
  have hempty : collect_char_range start stop = [] := by
    simp [collect_char_range, h0]
  refine ⟨hempty, ?_, ?_,
    main_model_ok o args font_data fnt base_name hread hparse hname hdir, by decide⟩
  · intro save f i col dir
    rw [hempty]
    rfl
  · intro save f i col dir
    rw [hempty]
    rfl

/-- C10 witness: the inverted-range run evaluated on concrete oracles. -/
theorem inverted_range_empty_and_ok_witness :
    main_model oracles_ok args_inverted = Except.ok () :=
  (inverted_range_empty_and_ok oracles_ok args_inverted 66 65 [] font_tiny "font.ttf"
    rfl (by omega) rfl rfl rfl rfl).2.2.2.1
